import Mathlib

/-!
# cmd/llm: value parsing, connection set-up and the error/exit contract

A shallow embedding of `cmd/llm/main.go` together with the parts of the Go
standard library (`encoding/hex`, `strconv`, `unicode/utf8`, `fmt`, `errors`)
and of `urfave/cli` that the file calls, followed by theorems about
`parseStr`, `parseHexStr`, `parseUint64`, `parseAmt`, `getClientConn`,
`getClient` and `fatal`.

Conventions of the embedding:

* a Go `string` is its byte sequence, `List Nat` with one entry per byte;
* a Go `[]byte` is `Option (List Nat)`, `none` being the `nil` slice;
* a Go `error` is `Option GoError`, `none` being `nil`;
* `uint64` / `int64` values are `Nat` / `Int`, with the wrap-around written
  out where the library code relies on it;
* a multi-value return `(v, err)` is a pair.
-/

namespace Llm

/-! ## Strings and byte slices -/

/-- A Go string: an immutable sequence of bytes. -/
abbrev GoString := List Nat

/-- A Go byte slice; `none` is the `nil` slice. -/
abbrev ByteSlice := Option (List Nat)

/-- The bytes of an ASCII string literal of the Go source. -/
def str (s : String) : GoString := s.toList.map Char.toNat

/-! ## urfave/cli: the invocation context -/

/-- The part of `cli.Context` the program reads: the `setFlags` map (as the
list of names mapped to `true`), the flag set (name and `Value.String()` of
every defined flag), the positional arguments `flagSet.Args()` and the flag
set found by `lookupGlobalFlagSet`. -/
structure Context where
  setFlags : List GoString
  flagSet : List (GoString × GoString)
  args : List GoString
  globalFlagSet : List (GoString × GoString)
deriving DecidableEq, Repr

/-- Library `lookupString`: the value of the flag when it is defined, else `""`. -/
def lookupString (name : GoString) (set : List (GoString × GoString)) : GoString :=
  match set.lookup name with
  | some parsed => parsed
  | none => []

/-- Library `(*Context).IsSet`: `c.setFlags[name]`. -/
def Context.IsSet (c : Context) (name : GoString) : Bool :=
  decide (name ∈ c.setFlags)

/-- Library `(*Context).String`. -/
def Context.String (c : Context) (name : GoString) : GoString :=
  lookupString name c.flagSet

/-- Library `(*Context).GlobalString`. -/
def Context.GlobalString (c : Context) (name : GoString) : GoString :=
  lookupString name c.globalFlagSet

/-- Library `(*Context).Args`. -/
def Context.Args (c : Context) : List GoString := c.args

/-- Library `Args.Get`: the nth argument, or else a blank string.  The index
is a natural number: the program passes non-negative constants. -/
def Args.Get (a : List GoString) (n : Nat) : GoString :=
  if h : a.length > n then a[n] else []

/-! ## Error values -/

/-- The two sentinel errors of `strconv`. -/
inductive NumErrKind where
  | ErrSyntax
  | ErrRange
deriving DecidableEq, Repr

/-- The error values that flow through the program.

* `invalidUsageError ctx command` is `&invalidUsageError{ctx, command}`;
* `InvalidByteError b` and `ErrLength` are the errors of `encoding/hex`;
* `NumError fn num err` is `&strconv.NumError{fn, num, err}`;
* `errorString s` is the result of `errors.New(s)`, hence of a `fmt.Errorf`
  without `%w`, and stands for any foreign error read only through `Error()`;
* `wrapError msg err` is an error with message `msg` whose `Unwrap()` is `err`
  (a `fmt.Errorf` with `%w`). -/
inductive GoError where
  | invalidUsageError (ctx : Context) (command : GoString)
  | InvalidByteError (b : Nat)
  | ErrLength
  | NumError (Func : GoString) (Num : GoString) (Err : NumErrKind)
  | errorString (s : GoString)
  | wrapError (msg : GoString) (err : GoError)
deriving DecidableEq, Repr

/-- The messages of `strconv.ErrSyntax` and `strconv.ErrRange`. -/
def NumErrKind.Error : NumErrKind → GoString
  | .ErrSyntax => str "invalid syntax"
  | .ErrRange => str "value out of range"

/-- A Usage Error: the dynamic type is `*invalidUsageError`. -/
def GoError.isUsage : GoError → Bool
  | .invalidUsageError _ _ => true
  | _ => false

/-- A Decode Error: one of the errors of `encoding/hex` or a `*strconv.NumError`. -/
def GoError.isDecode : GoError → Bool
  | .InvalidByteError _ => true
  | .ErrLength => true
  | .NumError _ _ _ => true
  | _ => false

/-! ## encoding/hex -/

namespace hex

/-- Library `fromHexChar`: the value of a hexadecimal digit and whether the
byte is one. -/
def fromHexChar (c : Nat) : Nat × Bool :=
  if 48 ≤ c ∧ c ≤ 57 then (c - 48, true)            -- '0' .. '9'
  else if 97 ≤ c ∧ c ≤ 102 then (c - 97 + 10, true) -- 'a' .. 'f'
  else if 65 ≤ c ∧ c ≤ 70 then (c - 65 + 10, true)  -- 'A' .. 'F'
  else (0, false)

/-- Library `Decode`, as a recursion over the pairs of the source: the bytes
decoded before the first error, and that error.  An odd trailing byte is
checked for validity before the length is reported. -/
def Decode : List Nat → List Nat × Option GoError
  | p :: q :: rest =>
    let a := fromHexChar p
    if !a.2 then ([], some (.InvalidByteError p))
    else
      let b := fromHexChar q
      if !b.2 then ([], some (.InvalidByteError q))
      else
        let r := Decode rest
        (((a.1 <<< 4) ||| b.1) :: r.1, r.2)
  | [p] =>
    if !(fromHexChar p).2 then ([], some (.InvalidByteError p))
    else ([], some .ErrLength)
  | [] => ([], none)

/-- Library `DecodeString`: `src[:n], err` over a fresh copy of the string, a
non-nil slice also when it is empty. -/
def DecodeString (s : GoString) : ByteSlice × Option GoError :=
  let r := Decode s
  (some r.1, r.2)

/-- The table `"0123456789abcdef"`, indexed. -/
def hextable (i : Nat) : Nat :=
  if i < 10 then 48 + i else 97 + (i - 10)

/-- Library `EncodeToString`: two lowercase digits per byte. -/
def EncodeToString : List Nat → GoString
  | [] => []
  | v :: rest => hextable (v >>> 4) :: hextable (v &&& 0x0f) :: EncodeToString rest

end hex

/-! ## unicode/utf8 -/

namespace utf8

def RuneError : Nat := 0xFFFD
def RuneSelf : Nat := 0x80
def MaxRune : Nat := 0x10FFFF

/-- The table `first`: information about the first byte of an encoding
(`as` = 0xF0 for ASCII, `xx` = 0xF1 for an invalid byte, else the accept-range
index in the high nibble and the size in the low one). -/
def first (b : Nat) : Nat :=
  if b < 0x80 then 0xF0
  else if b < 0xC2 then 0xF1
  else if b < 0xE0 then 0x02
  else if b = 0xE0 then 0x13
  else if b < 0xED then 0x03
  else if b = 0xED then 0x23
  else if b < 0xF0 then 0x03
  else if b = 0xF0 then 0x34
  else if b < 0xF4 then 0x04
  else if b = 0xF4 then 0x44
  else 0xF1

/-- The table `acceptRanges`: bounds `(lo, hi)` of the second byte. -/
def acceptRanges (i : Nat) : Nat × Nat :=
  match i with
  | 0 => (0x80, 0xBF)
  | 1 => (0xA0, 0xBF)
  | 2 => (0x80, 0x9F)
  | 3 => (0x90, 0xBF)
  | 4 => (0x80, 0x8F)
  | _ => (0, 0)

/-- Library `DecodeRuneInString`: the first rune of `s` and its width in
bytes; `(RuneError, 1)` on an invalid encoding. -/
def DecodeRuneInString (s : GoString) : Nat × Nat :=
  match s with
  | [] => (RuneError, 0)
  | s0 :: _ =>
    let x := first s0
    if x ≥ 0xF0 then
      (if x = 0xF1 then RuneError else s0, 1)
    else
      let sz := x &&& 7
      let accept := acceptRanges (x >>> 4)
      if s.length < sz then (RuneError, 1)
      else
        let s1 := s.getD 1 0
        if s1 < accept.1 ∨ accept.2 < s1 then (RuneError, 1)
        else if sz ≤ 2 then (((s0 &&& 0x1F) <<< 6) ||| (s1 &&& 0x3F), 2)
        else
          let s2 := s.getD 2 0
          if s2 < 0x80 ∨ 0xBF < s2 then (RuneError, 1)
          else if sz ≤ 3 then
            (((s0 &&& 0x0F) <<< 12) ||| ((s1 &&& 0x3F) <<< 6) ||| (s2 &&& 0x3F), 3)
          else
            let s3 := s.getD 3 0
            if s3 < 0x80 ∨ 0xBF < s3 then (RuneError, 1)
            else
              (((s0 &&& 0x07) <<< 18) ||| ((s1 &&& 0x3F) <<< 12) |||
                ((s2 &&& 0x3F) <<< 6) ||| (s3 &&& 0x3F), 4)

/-- Library `ValidRune`. -/
def ValidRune (r : Nat) : Bool :=
  (r < 0xD800) || (0xDFFF < r && r ≤ MaxRune)

/-- Library `EncodeRune`: the UTF-8 encoding of a rune. -/
def EncodeRune (r : Nat) : List Nat :=
  if r ≤ 0x7F then [r]
  else if r ≤ 0x7FF then [0xC0 ||| (r >>> 6), 0x80 ||| (r &&& 0x3F)]
  else
    let r := if r > MaxRune ∨ (0xD800 ≤ r ∧ r ≤ 0xDFFF) then RuneError else r
    if r ≤ 0xFFFF then
      [0xE0 ||| (r >>> 12), 0x80 ||| ((r >>> 6) &&& 0x3F), 0x80 ||| (r &&& 0x3F)]
    else
      [0xF0 ||| (r >>> 18), 0x80 ||| ((r >>> 12) &&& 0x3F),
        0x80 ||| ((r >>> 6) &&& 0x3F), 0x80 ||| (r &&& 0x3F)]

end utf8

/-! ## strconv -/

namespace strconv

/-- The table `"0123456789abcdef"` of `strconv`. -/
def lowerhex (i : Nat) : Nat :=
  if i < 10 then 48 + i else 97 + (i - 10)

/-- Library `IsPrint`.  The Latin-1 range is decided as in the library; above
it the library searches its Unicode tables (`isPrint16`, `isNotPrint16`,
`isPrint32`, `isNotPrint32`), which are taken as the parameter `wide`. -/
def IsPrint (wide : Nat → Bool) (r : Nat) : Bool :=
  if r ≤ 0xFF then
    if 0x20 ≤ r ∧ r ≤ 0x7E then true
    else if 0xA1 ≤ r ∧ r ≤ 0xFF then r != 0xAD
    else false
  else wide r

/-- The digits `lowerhex[r>>s & 0xF]` for `s = 4*(k-1), ..., 4, 0`. -/
def hexDigits (r : Nat) : Nat → List Nat
  | 0 => []
  | k + 1 => lowerhex ((r >>> (4 * k)) &&& 0xF) :: hexDigits r k

/-- Library `appendEscapedRune` with `quote = '"'`, `ASCIIonly = false` and
`graphicOnly = false`: the bytes appended for the rune `r`. -/
def appendEscapedRune (wide : Nat → Bool) (r : Nat) : List Nat :=
  if r = 34 ∨ r = 92 then [92, r]            -- the quote and the backslash
  else if IsPrint wide r then utf8.EncodeRune r
  else if r = 7 then str "\\a"
  else if r = 8 then str "\\b"
  else if r = 12 then str "\\f"
  else if r = 10 then str "\\n"
  else if r = 13 then str "\\r"
  else if r = 9 then str "\\t"
  else if r = 11 then str "\\v"
  else if r < 32 ∨ r = 0x7F then str "\\x" ++ [lowerhex (r >>> 4), lowerhex (r &&& 0xF)]
  else
    let r := if !utf8.ValidRune r then 0xFFFD else r
    if r < 0x10000 then str "\\u" ++ hexDigits r 4
    else str "\\U" ++ hexDigits r 8

/-- The loop of `appendQuotedWith`: `skip` counts the bytes of the current
rune still to be passed over (the source advances by `s = s[width:]`). -/
def quoteLoop (wide : Nat → Bool) : Nat → GoString → List Nat
  | _, [] => []
  | skip + 1, _ :: t => quoteLoop wide skip t
  | 0, c :: t =>
    let d := if c ≥ utf8.RuneSelf then utf8.DecodeRuneInString (c :: t) else (c, 1)
    (if d.2 = 1 ∧ d.1 = utf8.RuneError then
        str "\\x" ++ [lowerhex (c >>> 4), lowerhex (c &&& 0xF)]
      else appendEscapedRune wide d.1) ++ quoteLoop wide (d.2 - 1) t

/-- Library `Quote`: a double-quoted Go string literal for `s`. -/
def Quote (wide : Nat → Bool) (s : GoString) : GoString :=
  [34] ++ quoteLoop wide 0 s ++ [34]

def maxUint64 : Nat := 2 ^ 64 - 1

/-- Library `lower`: `c | ('x' - 'X')`. -/
def lower (c : Nat) : Nat := c ||| 0x20

/-- Library `syntaxError`. -/
def syntaxError (fn s : GoString) : GoError := .NumError fn s .ErrSyntax

/-- Library `rangeError`. -/
def rangeError (fn s : GoString) : GoError := .NumError fn s .ErrRange

/-- The `switch` at the head of the loop of `ParseUint` (with `base0` false):
the value of the byte as a digit, a letter counting from 10, or `none` when
the byte is neither. -/
def digitVal (c : Nat) : Option Nat :=
  if 48 ≤ c ∧ c ≤ 57 then some (c - 48)                              -- '0' .. '9'
  else if 97 ≤ lower c ∧ lower c ≤ 122 then some (lower c - 97 + 10) -- 'a' .. 'z'
  else none

/-- The digit loop of `ParseUint(s, 10, 64)` over the remaining bytes, `n`
being the value accumulated so far and `s0` the whole input.  `cutoff` is
`maxUint64/10 + 1` and `maxVal` is `1<<64 - 1`; the `uint64` arithmetic is
written modulo `2^64`. -/
def parseUintLoop (s0 : GoString) : List Nat → Nat → Nat × Option GoError
  | [], n => (n, none)
  | c :: cs, n =>
    match digitVal c with
    | none => (0, some (syntaxError (str "ParseUint") s0))
    | some d =>
      if d ≥ 10 then (0, some (syntaxError (str "ParseUint") s0))
      else if n ≥ maxUint64 / 10 + 1 then
        (maxUint64, some (rangeError (str "ParseUint") s0))
      else
        let n10 := (n * 10) % 2 ^ 64
        let n1 := (n10 + d) % 2 ^ 64
        if n1 < n10 ∨ n1 > maxUint64 then
          (maxUint64, some (rangeError (str "ParseUint") s0))
        else parseUintLoop s0 cs n1

/-- Library `ParseUint(s, 10, 64)`: the base and the bit size are the
constants the program passes, so the branches for base 0 (prefixes and
underscores) and for an invalid base or bit size are not taken. -/
def ParseUint (s : GoString) : Nat × Option GoError :=
  if s.length = 0 then (0, some (syntaxError (str "ParseUint") s))
  else parseUintLoop s s 0

/-- The conversion `int64(u)` of a `uint64`. -/
def toInt64 (u : Nat) : Int :=
  if u % 2 ^ 64 < 2 ^ 63 then (u % 2 ^ 64 : Nat) else (u % 2 ^ 64 : Nat) - 2 ^ 64

/-- Negation of an `int64`, wrapping at `-2^63`. -/
def negInt64 (i : Int) : Int :=
  (-i + 2 ^ 63) % 2 ^ 64 - 2 ^ 63

/-- Library `ParseInt(s, 10, 64)`. -/
def ParseInt (s0 : GoString) : Int × Option GoError :=
  match s0 with
  | [] => (0, some (syntaxError (str "ParseInt") s0))
  | c :: t =>
    let neg := decide (c ≠ 43) && decide (c = 45)       -- not '+', and '-'
    let s := if c = 43 then t else if c = 45 then t else s0
    let r := ParseUint s
    match r.2 with
    | some (.NumError _ _ .ErrSyntax) => (0, some (.NumError (str "ParseInt") s0 .ErrSyntax))
    | _ =>
      let un := r.1
      let cutoff : Nat := 2 ^ 63
      if !neg && decide (un ≥ cutoff) then
        (toInt64 (cutoff - 1), some (rangeError (str "ParseInt") s0))
      else if neg && decide (un > cutoff) then
        (negInt64 (toInt64 cutoff), some (rangeError (str "ParseInt") s0))
      else
        let n := toInt64 un
        (if neg then negInt64 n else n, none)

end strconv

/-! ## Error messages, fmt and errors -/

/-- The verb `%#U` of `fmt` (`fmtUnicode`): `U+` and at least four uppercase
hexadecimal digits, followed by the quoted character when it is printable. -/
def fmtUnicodeSharp (wide : Nat → Bool) (u : Nat) : GoString :=
  let ds := (Nat.toDigits 16 u).map (fun c => c.toUpper.toNat)
  str "U+" ++ List.replicate (4 - ds.length) 48 ++ ds ++
    (if u ≤ utf8.MaxRune ∧ strconv.IsPrint wide u then
      str " '" ++ utf8.EncodeRune u ++ str "'"
    else [])

/-- The method `Error()` of each error value. -/
def GoError.Error (wide : Nat → Bool) : GoError → GoString
  | .invalidUsageError _ command => str "invalid usage of command " ++ command
  | .InvalidByteError b => str "encoding/hex: invalid byte: " ++ fmtUnicodeSharp wide b
  | .ErrLength => str "encoding/hex: odd length hex string"
  | .NumError fn num err =>
    str "strconv." ++ fn ++ str ": parsing " ++ strconv.Quote wide num ++ str ": " ++ err.Error
  | .errorString s => s
  | .wrapError msg _ => msg

namespace errors

/-- Library `errors.As` with a target of type `**invalidUsageError`: the first
error of the `Unwrap` chain whose type is `*invalidUsageError`, as the pair
of its fields. -/
def As : GoError → Option (Context × GoString)
  | .invalidUsageError ctx command => some (ctx, command)
  | .wrapError _ err => As err
  | _ => none

end errors

/-! ## The value parser of cmd/llm -/

/-- Source `(*invalidUsageError).Error`. -/
def invalidUsageError.Error (command : GoString) : GoString :=
  str "invalid usage of command " ++ command

/-- Source `parseStr`. -/
def parseStr (ctx : Context) (argIdx : Nat) (flag cmd : GoString) :
    GoString × Option GoError :=
  if ctx.IsSet flag then
    (ctx.String flag, none)
  else if Args.Get ctx.Args argIdx ≠ [] then
    (Args.Get ctx.Args argIdx, none)
  else
    ([], some (.invalidUsageError ctx cmd))

/-- Source `parseHexStr`. -/
def parseHexStr (ctx : Context) (argIdx : Nat) (flag cmd : GoString) :
    ByteSlice × Option GoError :=
  match parseStr ctx argIdx flag cmd with
  | (_, some err) => (none, some err)
  | (hexStr, none) => hex.DecodeString hexStr

/-- Source `parseUint64`. -/
def parseUint64 (ctx : Context) (argIdx : Nat) (flag cmd : GoString) :
    Nat × Option GoError :=
  match parseStr ctx argIdx flag cmd with
  | (_, some err) => (0, some err)
  | (s, none) => strconv.ParseUint s

/-- Source `parseAmt`; a `btcutil.Amount` is an `int64` counting satoshis. -/
def parseAmt (wide : Nat → Bool) (text : GoString) : Int × Option GoError :=
  match strconv.ParseInt text with
  | (_, some err) => (0, some (.errorString (str "invalid amt value: " ++ err.Error wide)))
  | (amtInt64, none) => (amtInt64, none)

/-! ## The connection builder of cmd/llm -/

/-- A `*grpc.ClientConn`, known by the target it was dialled for. -/
structure ClientConn where
  target : GoString
deriving DecidableEq, Repr

/-- A `clmrpc.TraderClient`, the wrapper `NewTraderClient` puts around a channel. -/
structure TraderClient where
  cc : Option ClientConn
deriving DecidableEq, Repr

/-- The closure `func() { conn.Close() }`, known by the channel it closes. -/
structure Cleanup where
  closes : Option ClientConn
deriving DecidableEq, Repr

/-- Source `getClientConn`.  `Dial` is `grpc.Dial` with the insecure option:
for an address, a channel or an error. -/
def getClientConn (wide : Nat → Bool) (Dial : GoString → Except GoError ClientConn)
    (address : GoString) : Option ClientConn × Option GoError :=
  match Dial address with
  | .error err =>
    (none, some (.errorString (str "unable to connect to RPC server: " ++ err.Error wide)))
  | .ok conn => (some conn, none)

/-- Source `getClient`. -/
def getClient (wide : Nat → Bool) (Dial : GoString → Except GoError ClientConn)
    (ctx : Context) : Option TraderClient × Option Cleanup × Option GoError :=
  let rpcServer := ctx.GlobalString (str "rpcserver")
  match getClientConn wide Dial rpcServer with
  | (_, some err) => (none, none, some err)
  | (conn, none) => (some ⟨conn⟩, some ⟨conn⟩, none)

/-! ## The error and exit contract of cmd/llm -/

/-- What a call of `fatal` does: the arguments of `cli.ShowCommandHelp` when
it is called, the bytes written to `os.Stderr`, and the status given to
`os.Exit`. -/
structure Effects where
  help : Option (Context × GoString)
  stderr : GoString
  exitCode : Nat
deriving DecidableEq, Repr

/-- Source `fatal`. -/
def fatal (wide : Nat → Bool) (err : GoError) : Effects :=
  match errors.As err with
  | some (ctx, command) => { help := some (ctx, command), stderr := [], exitCode := 1 }
  | none =>
    { help := none, stderr := str "[llm] " ++ err.Error wide ++ str "\n", exitCode := 1 }

/-! ## Specification vocabulary and sample inputs -/

/-- The text the precedence rule selects for a parameter: the value of the
flag when the flag is set, else the positional argument when it is non-empty. -/
def Selects (ctx : Context) (argIdx : Nat) (flag t : GoString) : Prop :=
  (ctx.IsSet flag = true ∧ ctx.String flag = t) ∨
  (ctx.IsSet flag = false ∧ Args.Get ctx.Args argIdx = t ∧ t ≠ [])

instance (ctx : Context) (argIdx : Nat) (flag t : GoString) :
    Decidable (Selects ctx argIdx flag t) :=
  inferInstanceAs (Decidable
    ((ctx.IsSet flag = true ∧ ctx.String flag = t) ∨
      (ctx.IsSet flag = false ∧ Args.Get ctx.Args argIdx = t ∧ t ≠ [])))

/-- A hexadecimal digit: one of `0-9`, `a-f`, `A-F`. -/
def IsHexDigit (c : Nat) : Prop :=
  (48 ≤ c ∧ c ≤ 57) ∨ (97 ≤ c ∧ c ≤ 102) ∨ (65 ≤ c ∧ c ≤ 70)

instance (c : Nat) : Decidable (IsHexDigit c) :=
  inferInstanceAs (Decidable ((48 ≤ c ∧ c ≤ 57) ∨ (97 ≤ c ∧ c ≤ 102) ∨ (65 ≤ c ∧ c ≤ 70)))

/-- A decimal digit, `0-9`. -/
def IsDigit (c : Nat) : Prop := 48 ≤ c ∧ c ≤ 57

instance (c : Nat) : Decidable (IsDigit c) := inferInstanceAs (Decidable (48 ≤ c ∧ c ≤ 57))

/-- The number that a string of decimal digits denotes. -/
def decimalValue (t : GoString) : Nat := t.foldl (fun a c => a * 10 + (c - 48)) 0

/-- The base-10 representation of a natural number (`strconv.FormatUint(n, 10)`):
its digits, most significant first, `0` for zero. -/
def FormatUint (n : Nat) : GoString :=
  if n = 0 then [48] else (Nat.digits 10 n).reverse.map (48 + ·)

/-- The base-10 representation of an integer (`strconv.FormatInt(i, 10)`): a
leading `-` when it is negative. -/
def FormatInt (i : Int) : GoString :=
  if i < 0 then 45 :: FormatUint i.natAbs else FormatUint i.natAbs

/-- A text without its leading sign, `+` or `-`, if it has one. -/
def unsigned (t : GoString) : GoString :=
  match t with
  | [] => []
  | c :: r => if c = 43 ∨ c = 45 then r else c :: r

/-- A base-10 integer literal: an optional sign followed by one or more
decimal digits. -/
def IsIntLiteral (t : GoString) : Prop :=
  unsigned t ≠ [] ∧ ∀ c ∈ unsigned t, IsDigit c

instance (t : GoString) : Decidable (IsIntLiteral t) :=
  inferInstanceAs (Decidable (unsigned t ≠ [] ∧ ∀ c ∈ unsigned t, IsDigit c))

/-- A printable ASCII byte other than the double quote and the backslash. -/
def IsPlain (c : Nat) : Prop := 32 ≤ c ∧ c ≤ 126 ∧ c ≠ 34 ∧ c ≠ 92

instance (c : Nat) : Decidable (IsPlain c) :=
  inferInstanceAs (Decidable (32 ≤ c ∧ c ≤ 126 ∧ c ≠ 34 ∧ c ≠ 92))

/-- A printability table for the runes above Latin-1 that accepts none of them. -/
def noWide : Nat → Bool := fun _ => false

/-- An invocation with `--key 0aff` and the positional arguments `zz 17`. -/
def ctxFlag : Context :=
  { setFlags := [str "key"]
    flagSet := [(str "key", str "0aff")]
    args := [str "zz", str "17"]
    globalFlagSet := [(str "rpcserver", str "localhost:12010")] }

/-- An invocation with the positional arguments `0aff 17` and the flag `key`
left at its default `""`. -/
def ctxArgs : Context :=
  { setFlags := []
    flagSet := [(str "key", [])]
    args := [str "0aff", str "17"]
    globalFlagSet := [(str "rpcserver", str "localhost:12010")] }

/-- An invocation with neither the flag `key` nor any positional argument. -/
def ctxNone : Context :=
  { setFlags := []
    flagSet := [(str "key", [])]
    args := []
    globalFlagSet := [(str "rpcserver", str "bad:address")] }

/-- An invocation whose positional argument is the odd-length text `0af`. -/
def ctxOdd : Context :=
  { setFlags := []
    flagSet := [(str "key", [])]
    args := [str "0af"]
    globalFlagSet := [(str "rpcserver", str "localhost:12010")] }

/-- An invocation with `--amt` set to the largest `uint64`. -/
def ctxMax : Context :=
  { setFlags := [str "amt"]
    flagSet := [(str "amt", str "18446744073709551615")]
    args := []
    globalFlagSet := [(str "rpcserver", str "localhost:12010")] }

/-- An invocation with `--amt` set to `2^64`, and the argument `-5`. -/
def ctxOver : Context :=
  { setFlags := [str "amt"]
    flagSet := [(str "amt", str "18446744073709551616")]
    args := [str "-5"]
    globalFlagSet := [(str "rpcserver", str "localhost:12010")] }

/-- An invocation whose only argument is `-5`; the flag `amt` is not set. -/
def ctxMinus : Context :=
  { setFlags := []
    flagSet := [(str "amt", [])]
    args := [str "-5"]
    globalFlagSet := [(str "rpcserver", str "localhost:12010")] }

/-- The library `grpc.Dial` with the insecure option and without `WithBlock`,
at the targets used below.  The dial does not wait for a connection: for a
target such as `bad:address` or `localhost:12010` it returns a channel and a
nil error, and a server that cannot be reached shows only at the first call.
For the target `dns:///a:b:c` the DNS resolver cannot split the endpoint
`a:b:c` into host and port, the resolver is not built and the dial fails.
Other malformed targets are not listed. -/
def dialInsecure (address : GoString) : Except GoError ClientConn :=
  if address = str "dns:///a:b:c" then
    .error (.errorString (str ("failed to build resolver: invalid target address a:b:c, " ++
      "error info: address a:b:c:443: too many colons in address")))
  else .ok { target := address }

/-- An invocation with the global flag `--rpcserver dns:///a:b:c`. -/
def ctxDns : Context :=
  { setFlags := []
    flagSet := [(str "key", [])]
    args := []
    globalFlagSet := [(str "rpcserver", str "dns:///a:b:c")] }

/-- The error `fmt.Errorf("new: %w", err)` around the usage error of the
command `new`. -/
def wrappedUsage : GoError :=
  .wrapError (str "new: invalid usage of command new")
    (.invalidUsageError ctxNone (str "new"))

/-- An error value is a usage error or wraps one: the `invalidUsageError` with
these fields is the error itself or is reached from it through `Unwrap`. -/
inductive HoldsUsage : GoError → Context → GoString → Prop where
  | self (ctx : Context) (command : GoString) :
    HoldsUsage (.invalidUsageError ctx command) ctx command
  | wrap (msg : GoString) (err : GoError) (ctx : Context) (command : GoString) :
    HoldsUsage err ctx command → HoldsUsage (.wrapError msg err) ctx command

/-- An invocation whose only positional argument is the empty string. -/
def ctxBlank : Context :=
  { setFlags := []
    flagSet := [(str "key", [])]
    args := [[]]
    globalFlagSet := [(str "rpcserver", str "localhost:12010")] }

/-! ## The precedence rule -/

theorem parseStr_of_isSet (ctx : Context) (argIdx : Nat) (flag cmd : GoString)
    (h : ctx.IsSet flag = true) :
    parseStr ctx argIdx flag cmd = (ctx.String flag, none) := by
  simp [parseStr, h]

theorem parseStr_of_arg (ctx : Context) (argIdx : Nat) (flag cmd : GoString)
    (h : ctx.IsSet flag = false) (ha : Args.Get ctx.Args argIdx ≠ []) :
    parseStr ctx argIdx flag cmd = (Args.Get ctx.Args argIdx, none) := by
  simp [parseStr, h, ha]

theorem parseStr_of_missing (ctx : Context) (argIdx : Nat) (flag cmd : GoString)
    (h : ctx.IsSet flag = false) (ha : Args.Get ctx.Args argIdx = []) :
    parseStr ctx argIdx flag cmd = ([], some (.invalidUsageError ctx cmd)) := by
  simp [parseStr, h, ha]

theorem parseStr_of_selects (ctx : Context) (argIdx : Nat) (flag cmd t : GoString)
    (h : Selects ctx argIdx flag t) : parseStr ctx argIdx flag cmd = (t, none) := by
  rcases h with ⟨h1, h2⟩ | ⟨h1, h2, h3⟩
  · rw [parseStr_of_isSet _ _ _ _ h1, h2]
  · rw [parseStr_of_arg _ _ _ _ h1 (by rw [h2]; exact h3), h2]

theorem parseHexStr_of_selects (ctx : Context) (argIdx : Nat) (flag cmd t : GoString)
    (h : Selects ctx argIdx flag t) :
    parseHexStr ctx argIdx flag cmd = hex.DecodeString t := by
  simp [parseHexStr, parseStr_of_selects ctx argIdx flag cmd t h]

theorem parseUint64_of_selects (ctx : Context) (argIdx : Nat) (flag cmd t : GoString)
    (h : Selects ctx argIdx flag t) :
    parseUint64 ctx argIdx flag cmd = strconv.ParseUint t := by
  simp [parseUint64, parseStr_of_selects ctx argIdx flag cmd t h]

theorem get_absent (a : List GoString) (n : Nat) (h : a.length ≤ n) : Args.Get a n = [] := by
  simp [Args.Get, Nat.not_lt.mpr h]

/-- C1. Precedence rule of the value parser.  (1) When the flag is set,
`parseStr` returns the flag's value with a nil error, and so it does in every
context that differs only in its positional arguments, for every index; (2)
when the flag is not set and the positional argument at `argIdx` is
non-empty, `parseStr` returns that argument with a nil error; (3) in both
cases `parseHexStr` is `hex.DecodeString` and `parseUint64` is
`strconv.ParseUint` (base 10, 64 bits) of exactly that text. -/
theorem parseStr_precedence (ctx : Context) (argIdx : Nat) (flag cmd : GoString) :
    (ctx.IsSet flag = true →
      parseStr ctx argIdx flag cmd = (ctx.String flag, none) ∧
      (∀ (args' : List GoString) (argIdx' : Nat),
        parseStr { ctx with args := args' } argIdx' flag cmd = (ctx.String flag, none) ∧
        parseHexStr { ctx with args := args' } argIdx' flag cmd
          = parseHexStr ctx argIdx flag cmd ∧
        parseUint64 { ctx with args := args' } argIdx' flag cmd
          = parseUint64 ctx argIdx flag cmd) ∧
      parseHexStr ctx argIdx flag cmd = hex.DecodeString (ctx.String flag) ∧
      parseUint64 ctx argIdx flag cmd = strconv.ParseUint (ctx.String flag)) ∧
    (ctx.IsSet flag = false → Args.Get ctx.Args argIdx ≠ [] →
      parseStr ctx argIdx flag cmd = (Args.Get ctx.Args argIdx, none) ∧
      parseHexStr ctx argIdx flag cmd = hex.DecodeString (Args.Get ctx.Args argIdx) ∧
      parseUint64 ctx argIdx flag cmd = strconv.ParseUint (Args.Get ctx.Args argIdx)) := by
  constructor
  · intro h
    have hs : Selects ctx argIdx flag (ctx.String flag) := Or.inl ⟨h, rfl⟩
    have hs' : ∀ (args' : List GoString) (argIdx' : Nat),
        Selects { ctx with args := args' } argIdx' flag (ctx.String flag) :=
      fun _ _ => Or.inl ⟨h, rfl⟩
    refine ⟨parseStr_of_selects _ _ _ _ _ hs, ?_, parseHexStr_of_selects _ _ _ _ _ hs,
      parseUint64_of_selects _ _ _ _ _ hs⟩
    intro args' argIdx'
    refine ⟨parseStr_of_selects _ _ _ _ _ (hs' args' argIdx'), ?_, ?_⟩
    · rw [parseHexStr_of_selects _ _ _ _ _ (hs' args' argIdx'),
        parseHexStr_of_selects _ _ _ _ _ hs]
    · rw [parseUint64_of_selects _ _ _ _ _ (hs' args' argIdx'),
        parseUint64_of_selects _ _ _ _ _ hs]
  · intro h ha
    have hs : Selects ctx argIdx flag (Args.Get ctx.Args argIdx) := Or.inr ⟨h, rfl, ha⟩
    exact ⟨parseStr_of_selects _ _ _ _ _ hs, parseHexStr_of_selects _ _ _ _ _ hs,
      parseUint64_of_selects _ _ _ _ _ hs⟩

/-- Witness of C1: with `--key 0aff` and the arguments `zz 17` the flag's text
is returned and decoded, whatever replaces the arguments; with the arguments
`0aff 17` and no flag, the argument at index 1 is returned and parsed. -/
theorem parseStr_precedence_witness :
    (parseStr ctxFlag 0 (str "key") (str "new") = (str "0aff", none) ∧
      parseStr { ctxFlag with args := [str "17"] } 0 (str "key") (str "new")
        = (str "0aff", none) ∧
      parseHexStr ctxFlag 0 (str "key") (str "new") = (some [10, 255], none)) ∧
    (parseStr ctxArgs 1 (str "key") (str "new") = (str "17", none) ∧
      parseUint64 ctxArgs 1 (str "key") (str "new") = (17, none)) :=
  have hf := (parseStr_precedence ctxFlag 0 (str "key") (str "new")).1 (by decide)
  have ha := (parseStr_precedence ctxArgs 1 (str "key") (str "new")).2 (by decide) (by decide)
  ⟨⟨hf.1, (hf.2.1 [str "17"] 0).1, hf.2.2.1.trans (by decide)⟩,
    ha.1, ha.2.2.trans (by decide)⟩

/-! ## Missing input -/

/-- C2. When the flag is not set and the positional argument at `argIdx` is
empty (the empty string, or absent because `argIdx` is at least the number of
arguments), `parseStr`, `parseHexStr` and `parseUint64` return the zero value
of their result type (`""`, `nil`, `0`) and the `invalidUsageError` that holds
this context and this `cmd`, whose message is `invalid usage of command `
followed by `cmd`. -/
theorem parse_missing_usage (wide : Nat → Bool) (ctx : Context) (argIdx : Nat)
    (flag cmd : GoString) (h : ctx.IsSet flag = false)
    (ha : Args.Get ctx.Args argIdx = [] ∨ ctx.Args.length ≤ argIdx) :
    parseStr ctx argIdx flag cmd = ([], some (.invalidUsageError ctx cmd)) ∧
    parseHexStr ctx argIdx flag cmd = (none, some (.invalidUsageError ctx cmd)) ∧
    parseUint64 ctx argIdx flag cmd = (0, some (.invalidUsageError ctx cmd)) ∧
    (GoError.invalidUsageError ctx cmd).Error wide
      = str "invalid usage of command " ++ cmd ∧
    (GoError.invalidUsageError ctx cmd).isUsage = true := by
  have hg : Args.Get ctx.Args argIdx = [] := by
    rcases ha with ha | ha
    · exact ha
    · exact get_absent _ _ ha
  have hp := parseStr_of_missing ctx argIdx flag cmd h hg
  refine ⟨hp, ?_, ?_, rfl, rfl⟩
  · simp [parseHexStr, hp]
  · simp [parseUint64, hp]

/-- Witness of C2: no flag and no argument for the command `new`. -/
theorem parse_missing_usage_witness :
    parseStr ctxNone 0 (str "key") (str "new")
        = ([], some (.invalidUsageError ctxNone (str "new"))) ∧
    parseHexStr ctxNone 0 (str "key") (str "new")
        = (none, some (.invalidUsageError ctxNone (str "new"))) ∧
    parseUint64 ctxNone 0 (str "key") (str "new")
        = (0, some (.invalidUsageError ctxNone (str "new"))) ∧
    (GoError.invalidUsageError ctxNone (str "new")).Error noWide
        = str "invalid usage of command new" ∧
    (GoError.invalidUsageError ctxNone (str "new")).isUsage = true :=
  have h := parse_missing_usage noWide ctxNone 0 (str "key") (str "new") (by decide)
    (Or.inr (by decide))
  ⟨h.1, h.2.1, h.2.2.1, h.2.2.2.1.trans (by decide), h.2.2.2.2⟩

/-! ## Hexadecimal decoding -/

theorem fromHexChar_ok_iff (c : Nat) : (hex.fromHexChar c).2 = true ↔ IsHexDigit c := by
  unfold hex.fromHexChar IsHexDigit
  split_ifs <;> simp <;> omega

set_option maxRecDepth 100000 in
theorem byte_roundtrip : ∀ v < 256,
    hex.fromHexChar (hex.hextable (v >>> 4)) = (v >>> 4, true) ∧
    hex.fromHexChar (hex.hextable (v &&& 0x0f)) = (v &&& 0x0f, true) ∧
    ((v >>> 4) <<< 4) ||| (v &&& 0x0f) = v := by
  decide

theorem decode_encode (b : List Nat) (hb : ∀ v ∈ b, v < 256) :
    hex.Decode (hex.EncodeToString b) = (b, none) := by
  induction b with
  | nil => rfl
  | cons v rest ih =>
    have hv := byte_roundtrip v (hb v (List.mem_cons_self _ _))
    have ih' := ih (fun x hx => hb x (List.mem_cons_of_mem _ hx))
    simp [hex.EncodeToString, hex.Decode, hv.1, hv.2.1, hv.2.2, ih']

theorem decode_fails : ∀ (t : List Nat),
    (t.length % 2 = 1 ∨ ∃ c ∈ t, ¬ IsHexDigit c) →
    ∃ e, (hex.Decode t).2 = some e ∧
      (e = .ErrLength ∨ ∃ c ∈ t, ¬ IsHexDigit c ∧ e = .InvalidByteError c)
  | [], h => by simp at h
  | [p], _ => by
    unfold hex.Decode
    by_cases hp : (hex.fromHexChar p).2 = true
    · exact ⟨.ErrLength, by simp [hp], Or.inl rfl⟩
    · refine ⟨.InvalidByteError p, by simp [hp], Or.inr ⟨p, by simp, ?_, rfl⟩⟩
      exact fun hd => hp ((fromHexChar_ok_iff _).2 hd)
  | p :: q :: rest, h => by
    unfold hex.Decode
    by_cases hp : (hex.fromHexChar p).2 = true
    · by_cases hq : (hex.fromHexChar q).2 = true
      · have h' : rest.length % 2 = 1 ∨ ∃ c ∈ rest, ¬ IsHexDigit c := by
          rcases h with h | ⟨c, hc, hn⟩
          · left; simp at h; omega
          · right
            simp only [List.mem_cons] at hc
            rcases hc with rfl | rfl | hc
            · exact absurd ((fromHexChar_ok_iff _).1 hp) hn
            · exact absurd ((fromHexChar_ok_iff _).1 hq) hn
            · exact ⟨c, hc, hn⟩
        obtain ⟨e, he, hk⟩ := decode_fails rest h'
        refine ⟨e, by simp [hp, hq, he], ?_⟩
        rcases hk with hk | ⟨c, hc, hn, hk⟩
        · exact Or.inl hk
        · exact Or.inr ⟨c, by simp [hc], hn, hk⟩
      · refine ⟨.InvalidByteError q, by simp [hp, hq], Or.inr ⟨q, by simp, ?_, rfl⟩⟩
        exact fun hd => hq ((fromHexChar_ok_iff _).2 hd)
    · refine ⟨.InvalidByteError p, by simp [hp], Or.inr ⟨p, by simp, ?_, rfl⟩⟩
      exact fun hd => hp ((fromHexChar_ok_iff _).2 hd)

/-- Refutation of C3 as stated: the flag is not set and the positional
argument at index 0 is the empty string, which is the hexadecimal encoding of
the empty byte sequence; `parseHexStr` returns a nil slice and a usage error,
not the empty sequence with a nil error. -/
theorem parseHexStr_roundtrip_blank_counterexample :
    ctxBlank.IsSet (str "key") = false ∧
    0 < ctxBlank.Args.length ∧
    Args.Get ctxBlank.Args 0 = hex.EncodeToString [] ∧
    parseHexStr ctxBlank 0 (str "key") (str "new")
      = (none, some (.invalidUsageError ctxBlank (str "new"))) ∧
    parseHexStr ctxBlank 0 (str "key") (str "new") ≠ (some [], none) := by
  decide

/-- C3, amended. For every byte sequence `b` (entries below 256): when the
flag is set and its value is the lowercase hexadecimal encoding of `b`, or
the flag is not set, `b` is not empty and the positional argument at `argIdx`
is that encoding, `parseHexStr` returns `b` with a nil error. -/
theorem parseHexStr_roundtrip (ctx : Context) (argIdx : Nat) (flag cmd : GoString)
    (b : List Nat) (hb : ∀ v ∈ b, v < 256)
    (h : (ctx.IsSet flag = true ∧ ctx.String flag = hex.EncodeToString b) ∨
      (ctx.IsSet flag = false ∧ b ≠ [] ∧
        Args.Get ctx.Args argIdx = hex.EncodeToString b)) :
    parseHexStr ctx argIdx flag cmd = (some b, none) := by
  have hs : Selects ctx argIdx flag (hex.EncodeToString b) := by
    rcases h with ⟨h1, h2⟩ | ⟨h1, h2, h3⟩
    · exact Or.inl ⟨h1, h2⟩
    · refine Or.inr ⟨h1, h3, ?_⟩
      cases b with
      | nil => exact absurd rfl h2
      | cons v rest => simp [hex.EncodeToString]
  rw [parseHexStr_of_selects _ _ _ _ _ hs]
  simp [hex.DecodeString, decode_encode b hb]

/-- Witness of C3: the argument `0aff` decodes to the bytes 10 and 255. -/
theorem parseHexStr_roundtrip_witness :
    parseHexStr ctxArgs 0 (str "key") (str "new") = (some [10, 255], none) :=
  parseHexStr_roundtrip ctxArgs 0 (str "key") (str "new") [10, 255] (by decide)
    (Or.inr (by decide))

/-- C4. When the selected text has odd length or holds a byte that is not a
hexadecimal digit, `parseHexStr` returns a non-nil error that is a decode
error of `encoding/hex` and not a usage error: `ErrLength`, or the
`InvalidByteError` of a byte of the text that is not a hexadecimal digit. -/
theorem parseHexStr_rejects (ctx : Context) (argIdx : Nat) (flag cmd t : GoString)
    (hs : Selects ctx argIdx flag t)
    (h : t.length % 2 = 1 ∨ ∃ c ∈ t, ¬ IsHexDigit c) :
    ∃ e, (parseHexStr ctx argIdx flag cmd).2 = some e ∧
      e.isDecode = true ∧ e.isUsage = false ∧
      (e = .ErrLength ∨ ∃ c ∈ t, ¬ IsHexDigit c ∧ e = .InvalidByteError c) := by
  obtain ⟨e, he, hk⟩ := decode_fails t h
  refine ⟨e, ?_, ?_, ?_, hk⟩
  · rw [parseHexStr_of_selects _ _ _ _ _ hs]
    simpa [hex.DecodeString] using he
  · rcases hk with rfl | ⟨c, _, _, rfl⟩ <;> rfl
  · rcases hk with rfl | ⟨c, _, _, rfl⟩ <;> rfl

/-- Witness of C4: the odd-length argument `0af` is rejected with `ErrLength`. -/
theorem parseHexStr_rejects_witness :
    ∃ e, (parseHexStr ctxOdd 0 (str "key") (str "new")).2 = some e ∧
      e.isDecode = true ∧ e.isUsage = false ∧
      (e = .ErrLength ∨ ∃ c ∈ str "0af", ¬ IsHexDigit c ∧ e = .InvalidByteError c) :=
  parseHexStr_rejects ctxOdd 0 (str "key") (str "new") (str "0af") (by decide)
    (Or.inl (by decide))

/-! ## Integer parsing -/

namespace strconv

theorem digitVal_digit (c : Nat) (h : IsDigit c) : digitVal c = some (c - 48) := by
  unfold IsDigit at h
  simp [digitVal, h]

theorem foldl_ge (t : List Nat) (n : Nat) :
    n ≤ t.foldl (fun a c => a * 10 + (c - 48)) n := by
  induction t generalizing n with
  | nil => simp
  | cons c cs ih =>
    simp only [List.foldl_cons]
    exact le_trans (by omega) (ih _)

theorem loop_digits (s0 : GoString) (t : List Nat) (n : Nat) (ht : ∀ c ∈ t, IsDigit c)
    (hn : n < 2 ^ 64) :
    parseUintLoop s0 t n =
      if t.foldl (fun a c => a * 10 + (c - 48)) n < 2 ^ 64 then
        (t.foldl (fun a c => a * 10 + (c - 48)) n, none)
      else (maxUint64, some (rangeError (str "ParseUint") s0)) := by
  induction t generalizing n with
  | nil =>
    simp only [parseUintLoop, List.foldl_nil]
    rw [if_pos hn]
  | cons c cs ih =>
    have hc : IsDigit c := ht c (List.mem_cons_self _ _)
    have hcs : ∀ x ∈ cs, IsDigit x := fun x hx => ht x (List.mem_cons_of_mem _ hx)
    have hge := foldl_ge cs (n * 10 + (c - 48))
    unfold IsDigit at hc
    simp only [parseUintLoop, digitVal_digit c hc, List.foldl_cons, maxUint64]
    have hd : ¬ (c - 48 ≥ 10) := by omega
    rw [if_neg hd]
    by_cases h1 : n ≥ (2 ^ 64 - 1) / 10 + 1
    · rw [if_pos h1, if_neg (by omega)]
    · rw [if_neg h1]
      have h10 : n * 10 % 2 ^ 64 = n * 10 := Nat.mod_eq_of_lt (by omega)
      simp only [h10]
      by_cases h2 : n * 10 + (c - 48) < 2 ^ 64
      · have h3 : (n * 10 + (c - 48)) % 2 ^ 64 = n * 10 + (c - 48) := Nat.mod_eq_of_lt h2
        rw [h3, if_neg (by omega)]
        exact ih _ hcs h2
      · rw [if_pos (by omega), if_neg (by omega)]

theorem ParseUint_digits (t : GoString) (hne : t ≠ []) (ht : ∀ c ∈ t, IsDigit c) :
    ParseUint t =
      if decimalValue t ≤ maxUint64 then (decimalValue t, none)
      else (maxUint64, some (rangeError (str "ParseUint") t)) := by
  have hl : ¬ t.length = 0 := by
    intro h
    exact hne (List.length_eq_zero.mp h)
  unfold ParseUint
  rw [if_neg hl, loop_digits t t 0 ht (by norm_num)]
  unfold decimalValue maxUint64
  by_cases h : List.foldl (fun a c => a * 10 + (c - 48)) 0 t < 2 ^ 64
  · rw [if_pos h, if_pos (by omega)]
  · rw [if_neg h, if_neg (by omega)]

theorem FormatUint_ne_nil (n : Nat) : FormatUint n ≠ [] := by
  unfold FormatUint
  split_ifs with h
  · simp
  · simp [Nat.digits_eq_nil_iff_eq_zero, h]

theorem FormatUint_digits (n : Nat) : ∀ c ∈ FormatUint n, IsDigit c := by
  unfold FormatUint IsDigit
  split_ifs with h
  · simp
  · intro c hc
    simp only [List.mem_map, List.mem_reverse] at hc
    obtain ⟨d, hd, rfl⟩ := hc
    have := Nat.digits_lt_base (by norm_num : 1 < 10) hd
    omega

theorem foldl_digits (l : List Nat) :
    (l.reverse.map (48 + ·)).foldl (fun a c => a * 10 + (c - 48)) 0 = Nat.ofDigits 10 l := by
  induction l with
  | nil => rfl
  | cons d ds ih =>
    simp only [List.reverse_cons, List.map_append, List.foldl_append, ih, List.map_cons,
      List.map_nil, List.foldl_cons, List.foldl_nil, Nat.ofDigits_cons]
    omega

theorem decimalValue_FormatUint (n : Nat) : decimalValue (FormatUint n) = n := by
  unfold FormatUint decimalValue
  split_ifs with h
  · simp [h]
  · rw [foldl_digits, Nat.ofDigits_digits]

theorem ParseUint_FormatUint (n : Nat) (h : n ≤ maxUint64) :
    ParseUint (FormatUint n) = (n, none) := by
  rw [ParseUint_digits _ (FormatUint_ne_nil n) (FormatUint_digits n),
    decimalValue_FormatUint, if_pos h]

theorem ParseUint_minus (t : GoString) :
    ParseUint (45 :: t) = (0, some (.NumError (str "ParseUint") (45 :: t) .ErrSyntax)) := by
  simp [ParseUint, parseUintLoop, digitVal, lower, syntaxError]

theorem FormatUint_head (n : Nat) : ∃ c r, FormatUint n = c :: r ∧ IsDigit c := by
  have h1 := FormatUint_ne_nil n
  have h2 := FormatUint_digits n
  cases hf : FormatUint n with
  | nil => exact absurd hf h1
  | cons c r => exact ⟨c, r, rfl, h2 c (by simp [hf])⟩

theorem toInt64_small (u : Nat) (h : u < 2 ^ 63) : toInt64 u = u := by
  unfold toInt64
  have : u % 2 ^ 64 = u := Nat.mod_eq_of_lt (by omega)
  rw [this, if_pos h]

theorem ParseInt_unsigned (c : Nat) (r : List Nat) (u : Nat) (hc : IsDigit c)
    (hu : ParseUint (c :: r) = (u, none)) (h : u < 2 ^ 63) :
    ParseInt (c :: r) = ((u : Int), none) := by
  unfold IsDigit at hc
  have h43 : c ≠ 43 := by omega
  have h45 : c ≠ 45 := by omega
  have hlt : ¬ (u ≥ 2 ^ 63) := by omega
  simp only [ParseInt, h43, h45, if_false, hu, toInt64_small u h, hlt]
  simp

theorem ParseInt_minus (t : List Nat) (u : Nat)
    (hu : ParseUint t = (u, none)) (h : u ≤ 2 ^ 63) :
    ParseInt (45 :: t) = (-(u : Int), none) := by
  have hgt : ¬ (u > 2 ^ 63) := by omega
  have hv : negInt64 (toInt64 u) = -(u : Int) := by
    unfold negInt64 toInt64
    have hm : u % 2 ^ 64 = u := Nat.mod_eq_of_lt (by omega)
    rw [hm]
    split_ifs with hlt <;> omega
  simp [ParseInt, hu, hv, hgt]
  omega

theorem ParseInt_FormatInt (i : Int) (hlo : -2 ^ 63 ≤ i) (hhi : i ≤ 2 ^ 63 - 1) :
    ParseInt (FormatInt i) = (i, none) := by
  unfold FormatInt
  split_ifs with hneg
  · have hu : ParseUint (FormatUint i.natAbs) = (i.natAbs, none) :=
      ParseUint_FormatUint _ (by unfold maxUint64; omega)
    rw [ParseInt_minus _ _ hu (by omega)]
    congr 1
    omega
  · obtain ⟨c, r, hf, hc⟩ := FormatUint_head i.natAbs
    have hu : ParseUint (c :: r) = (i.natAbs, none) := by
      rw [← hf]
      exact ParseUint_FormatUint _ (by unfold maxUint64; omega)
    rw [hf, ParseInt_unsigned c r _ hc hu (by omega)]
    congr 1
    omega

end strconv

theorem formatUint_zero : FormatUint 0 = str "0" := by decide

theorem formatUint_max : FormatUint 18446744073709551615 = str "18446744073709551615" := by
  simp [FormatUint]
  decide

/-- C5. Range of unsigned-integer parsing.  When the selected text is the
base-10 representation of `n ≤ 2^64 - 1`, `parseUint64` returns `n` with a nil
error; when it is a `-` followed by anything (digits in particular), the
result is 0 with the `ErrSyntax` error of `ParseUint`; when it is a non-empty
digit string whose value exceeds `2^64 - 1`, the result is `2^64 - 1` with the
`ErrRange` error of `ParseUint`.  Both errors are decode errors and not usage
errors. -/
theorem parseUint64_range (ctx : Context) (argIdx : Nat) (flag cmd : GoString) :
    (∀ n : Nat, n ≤ 2 ^ 64 - 1 → Selects ctx argIdx flag (FormatUint n) →
      parseUint64 ctx argIdx flag cmd = (n, none)) ∧
    (∀ t : GoString, Selects ctx argIdx flag (45 :: t) →
      parseUint64 ctx argIdx flag cmd
        = (0, some (.NumError (str "ParseUint") (45 :: t) .ErrSyntax))) ∧
    (∀ t : GoString, t ≠ [] → (∀ c ∈ t, IsDigit c) → decimalValue t > 2 ^ 64 - 1 →
      Selects ctx argIdx flag t →
      parseUint64 ctx argIdx flag cmd
        = (2 ^ 64 - 1, some (.NumError (str "ParseUint") t .ErrRange))) ∧
    (∀ (fn num : GoString) (k : NumErrKind),
      (GoError.NumError fn num k).isDecode = true ∧
      (GoError.NumError fn num k).isUsage = false) := by
  refine ⟨?_, ?_, ?_, fun _ _ _ => ⟨rfl, rfl⟩⟩
  · intro n hn hs
    rw [parseUint64_of_selects _ _ _ _ _ hs]
    exact strconv.ParseUint_FormatUint n hn
  · intro t hs
    rw [parseUint64_of_selects _ _ _ _ _ hs]
    exact strconv.ParseUint_minus t
  · intro t hne ht hv hs
    rw [parseUint64_of_selects _ _ _ _ _ hs, strconv.ParseUint_digits t hne ht,
      if_neg (by unfold strconv.maxUint64; omega)]
    rfl

/-- Witness of C5: `--amt 18446744073709551615` parses to `2^64 - 1`;
`--amt 18446744073709551616` is out of range; the argument `-5` is a syntax
error. -/
theorem parseUint64_range_witness :
    parseUint64 ctxMax 0 (str "amt") (str "new") = (18446744073709551615, none) ∧
    parseUint64 ctxMinus 0 (str "amt") (str "new")
      = (0, some (.NumError (str "ParseUint") (str "-5") .ErrSyntax)) ∧
    parseUint64 ctxOver 0 (str "amt") (str "new")
      = (2 ^ 64 - 1,
          some (.NumError (str "ParseUint") (str "18446744073709551616") .ErrRange)) :=
  ⟨(parseUint64_range ctxMax 0 (str "amt") (str "new")).1 18446744073709551615 (by norm_num)
      (by rw [formatUint_max]; decide),
    (parseUint64_range ctxMinus 0 (str "amt") (str "new")).2.1 (str "5") (by decide),
    (parseUint64_range ctxOver 0 (str "amt") (str "new")).2.2.1 (str "18446744073709551616")
      (by decide) (by decide) (by decide) (by decide)⟩

/-- C6. Currency amounts are signed: for every integer `i` with
`-2^63 ≤ i ≤ 2^63 - 1`, `parseAmt` of the base-10 representation of `i`
returns the amount of exactly `i` units with a nil error. -/
theorem parseAmt_signed (wide : Nat → Bool) (i : Int) (hlo : -2 ^ 63 ≤ i)
    (hhi : i ≤ 2 ^ 63 - 1) : parseAmt wide (FormatInt i) = (i, none) := by
  have hp : strconv.ParseInt (FormatInt i) = (i, none) :=
    strconv.ParseInt_FormatInt i hlo hhi
  unfold parseAmt
  rw [hp]

/-- Witness of C6: the smallest amount, `-2^63`. -/
theorem parseAmt_signed_witness :
    FormatInt (-9223372036854775808) = str "-9223372036854775808" ∧
    parseAmt noWide (FormatInt (-9223372036854775808)) = (-9223372036854775808, none) :=
  ⟨by simp [FormatInt, FormatUint]; decide,
    parseAmt_signed noWide (-9223372036854775808) (by norm_num) (by norm_num)⟩

/-! ## Rejected amounts -/

namespace strconv

theorem digitVal_nondigit (c d : Nat) (hc : ¬ IsDigit c) (h : digitVal c = some d) :
    d ≥ 10 := by
  unfold IsDigit at hc
  unfold digitVal at h
  rw [if_neg hc] at h
  split_ifs at h
  simp only [Option.some.injEq] at h
  omega

theorem loop_nondigit (s0 : GoString) (cs : List Nat) (n : Nat)
    (h : ∃ c ∈ cs, ¬ IsDigit c) :
    parseUintLoop s0 cs n = (0, some (.NumError (str "ParseUint") s0 .ErrSyntax)) ∨
    parseUintLoop s0 cs n = (maxUint64, some (.NumError (str "ParseUint") s0 .ErrRange)) := by
  induction cs generalizing n with
  | nil => simp at h
  | cons c cs ih =>
    unfold parseUintLoop
    cases hd : digitVal c with
    | none => exact Or.inl rfl
    | some d =>
      simp only
      by_cases h10 : d ≥ 10
      · rw [if_pos h10]; exact Or.inl rfl
      · rw [if_neg h10]
        split_ifs
        · exact Or.inr rfl
        · exact Or.inr rfl
        · apply ih
          obtain ⟨x, hx, hn⟩ := h
          rcases List.mem_cons.mp hx with rfl | hx
          · exact absurd (digitVal_nondigit _ _ hn hd) h10
          · exact ⟨x, hx, hn⟩

theorem ParseUint_nondigits (t : GoString) (h : ¬ (t ≠ [] ∧ ∀ c ∈ t, IsDigit c)) :
    ParseUint t = (0, some (.NumError (str "ParseUint") t .ErrSyntax)) ∨
    ParseUint t = (maxUint64, some (.NumError (str "ParseUint") t .ErrRange)) := by
  unfold ParseUint
  by_cases hl : t.length = 0
  · rw [if_pos hl]; exact Or.inl rfl
  · rw [if_neg hl]
    apply loop_nondigit
    by_contra hc
    apply h
    refine ⟨fun hn => hl (by simp [hn]), fun c hm => ?_⟩
    by_contra hd
    exact hc ⟨c, hm, hd⟩

theorem ParseInt_nonliteral (t : GoString) (h : ¬ IsIntLiteral t) :
    ∃ (v : Int) (k : NumErrKind),
      ParseInt t = (v, some (.NumError (str "ParseInt") t k)) := by
  cases t with
  | nil => exact ⟨0, .ErrSyntax, rfl⟩
  | cons c r =>
    have hs : (if c = 43 then r else if c = 45 then r else c :: r) = unsigned (c :: r) := by
      unfold unsigned
      by_cases h1 : c = 43
      · simp [h1]
      · by_cases h2 : c = 45
        · simp [h2]
        · simp [h1, h2]
    unfold ParseInt
    simp only [hs]
    rcases ParseUint_nondigits (unsigned (c :: r)) h with hu | hu
    · rw [hu]
      exact ⟨0, .ErrSyntax, rfl⟩
    · rw [hu]
      simp only [maxUint64, rangeError]
      by_cases h45 : c = 45
      · subst h45
        exact ⟨negInt64 (toInt64 (2 ^ 63)), .ErrRange, by simp⟩
      · exact ⟨toInt64 (2 ^ 63 - 1), .ErrRange, by simp [h45]⟩

theorem quoteLoop_plain (wide : Nat → Bool) (t : GoString) (h : ∀ c ∈ t, IsPlain c) :
    quoteLoop wide 0 t = t := by
  induction t with
  | nil => rfl
  | cons c cs ih =>
    have hc : IsPlain c := h c (List.mem_cons_self _ _)
    unfold IsPlain at hc
    have h1 : ¬ (c ≥ utf8.RuneSelf) := by unfold utf8.RuneSelf; omega
    have h2 : ¬ (c = utf8.RuneError) := by unfold utf8.RuneError; omega
    have h3 : ¬ (c = 34 ∨ c = 92) := by omega
    have h4 : IsPrint wide c = true := by
      unfold IsPrint
      rw [if_pos (by omega), if_pos (by omega)]
    have h5 : utf8.EncodeRune c = [c] := by
      unfold utf8.EncodeRune
      rw [if_pos (by omega)]
    simp only [quoteLoop, h1, if_false, h2, and_false, appendEscapedRune, h3, h4, if_true, h5,
      Nat.sub_self, List.singleton_append, List.cons.injEq, true_and]
    exact ih (fun x hx => h x (List.mem_cons_of_mem _ hx))

end strconv

theorem parseAmt_nonliteral (wide : Nat → Bool) (t : GoString) (h : ¬ IsIntLiteral t) :
    ∃ k : NumErrKind, parseAmt wide t =
      (0, some (.errorString (str "invalid amt value: " ++
        (str "strconv.ParseInt: parsing " ++ strconv.Quote wide t ++ str ": " ++ k.Error)))) := by
  obtain ⟨v, k, hp⟩ := strconv.ParseInt_nonliteral t h
  refine ⟨k, ?_⟩
  simp only [parseAmt, hp, GoError.Error]
  simp [str]


/-- The result of `parseAmt` on the text `a"b` does not depend on the
printability table: the text is ASCII. -/
theorem parseAmt_quoted_any_table (wide : Nat → Bool) :
    parseAmt wide (str "a\"b") = parseAmt noWide (str "a\"b") := rfl

/-- Refutation of C7 as stated: the text `a"b` is not an integer literal, and
the message of the error of `parseAmt` holds it in quoted form, `a\"b`, so
the text itself is not a substring of the message. -/
theorem parseAmt_quoted_counterexample :
    ¬ IsIntLiteral (str "a\"b") ∧
    parseAmt noWide (str "a\"b") = (0, some (.errorString
      (str "invalid amt value: strconv.ParseInt: parsing \"a\\\"b\": invalid syntax"))) ∧
    ¬ (str "a\"b" <:+:
      str "invalid amt value: strconv.ParseInt: parsing \"a\\\"b\": invalid syntax") := by
  refine ⟨by decide, by decide, ?_⟩
  set_option maxRecDepth 100000 in decide

/-- C7, amended. For every text that is not a base-10 integer literal,
`parseAmt` returns the amount 0 and a non-nil error whose message is
`invalid amt value: strconv.ParseInt: parsing `, the text as `strconv.Quote`
writes it, `: ` and `invalid syntax` or `value out of range`.  The message
begins with `invalid amt value: ` and contains the quoted text; it contains
the text itself, byte for byte, when every byte of the text is printable
ASCII other than the double quote and the backslash. -/
theorem parseAmt_rejects (wide : Nat → Bool) (t : GoString) (h : ¬ IsIntLiteral t) :
    ∃ (k : NumErrKind) (msg : GoString),
      msg = str "invalid amt value: " ++
        (str "strconv.ParseInt: parsing " ++ strconv.Quote wide t ++ str ": " ++ k.Error) ∧
      parseAmt wide t = (0, some (.errorString msg)) ∧
      (GoError.errorString msg).Error wide = msg ∧
      str "invalid amt value: " <+: msg ∧
      strconv.Quote wide t <:+: msg ∧
      ((∀ c ∈ t, IsPlain c) → t <:+: msg) := by
  obtain ⟨k, hk⟩ := parseAmt_nonliteral wide t h
  refine ⟨k, _, rfl, hk, rfl, List.prefix_append _ _, ?_, ?_⟩
  · exact ⟨str "invalid amt value: " ++ str "strconv.ParseInt: parsing ",
      str ": " ++ k.Error, by simp [List.append_assoc]⟩
  · intro hp
    refine ⟨str "invalid amt value: " ++ str "strconv.ParseInt: parsing " ++ [34],
      [34] ++ (str ": " ++ k.Error), ?_⟩
    simp [strconv.Quote, strconv.quoteLoop_plain wide t hp, List.append_assoc]

/-- Witness of C7: the text `12x`. -/
theorem parseAmt_rejects_witness :
    ∃ (k : NumErrKind) (msg : GoString),
      msg = str "invalid amt value: " ++
        (str "strconv.ParseInt: parsing " ++ strconv.Quote noWide (str "12x") ++ str ": " ++
          k.Error) ∧
      parseAmt noWide (str "12x") = (0, some (.errorString msg)) ∧
      (GoError.errorString msg).Error noWide = msg ∧
      str "invalid amt value: " <+: msg ∧
      strconv.Quote noWide (str "12x") <:+: msg ∧
      ((∀ c ∈ str "12x", IsPlain c) → str "12x" <:+: msg) :=
  parseAmt_rejects noWide (str "12x") (by decide)

/-- Refutation of C10 as stated: `parseAmt` of the empty text fails with an
error that is not a usage error and holds none, and `fatal` shows no help for
it but writes the error line to stderr. -/
theorem parseAmt_empty_counterexample :
    parseAmt noWide [] = (0, some (.errorString
      (str "invalid amt value: strconv.ParseInt: parsing \"\": invalid syntax"))) ∧
    (GoError.errorString
      (str "invalid amt value: strconv.ParseInt: parsing \"\": invalid syntax")).isUsage
      = false ∧
    fatal noWide (.errorString
      (str "invalid amt value: strconv.ParseInt: parsing \"\": invalid syntax"))
      = { help := none
          stderr := str "[llm] invalid amt value: strconv.ParseInt: parsing \"\": invalid syntax\n"
          exitCode := 1 } := by
  decide

/-- C10, amended. When the text given to `parseAmt` is the empty string,
`parseAmt` returns the amount 0 and an error that is not a usage error, with
the message `invalid amt value: strconv.ParseInt: parsing "": invalid syntax`;
`fatal` shows no help for it, writes `[llm] `, that message and a newline to
stderr, and exits with status 1. -/
theorem parseAmt_empty (wide : Nat → Bool) :
    parseAmt wide [] = (0, some (.errorString
      (str "invalid amt value: strconv.ParseInt: parsing \"\": invalid syntax"))) ∧
    (GoError.errorString
      (str "invalid amt value: strconv.ParseInt: parsing \"\": invalid syntax")).isUsage
      = false ∧
    errors.As (.errorString
      (str "invalid amt value: strconv.ParseInt: parsing \"\": invalid syntax")) = none ∧
    fatal wide (.errorString
      (str "invalid amt value: strconv.ParseInt: parsing \"\": invalid syntax"))
      = { help := none
          stderr := str "[llm] invalid amt value: strconv.ParseInt: parsing \"\": invalid syntax\n"
          exitCode := 1 } :=
  ⟨rfl, rfl, rfl, rfl⟩

/-! ## Connection failures -/

/-- Refutation of C8 as stated: the dial of `dns:///a:b:c` fails while the
resolver is built, and the message of the error of `getClientConn` holds the
message of that cause but not the address that was passed in.  The dial of
`bad:address` does not fail. -/
theorem getClientConn_address_counterexample :
    getClientConn noWide dialInsecure (str "bad:address")
      = (some { target := str "bad:address" }, none) ∧
    dialInsecure (str "dns:///a:b:c")
      = .error (.errorString (str ("failed to build resolver: invalid target address " ++
          "a:b:c, error info: address a:b:c:443: too many colons in address"))) ∧
    getClientConn noWide dialInsecure (str "dns:///a:b:c") = (none, some (.errorString
      (str ("unable to connect to RPC server: failed to build resolver: invalid target " ++
        "address a:b:c, error info: address a:b:c:443: too many colons in address")))) ∧
    ¬ (str "dns:///a:b:c" <:+:
      str ("unable to connect to RPC server: failed to build resolver: invalid target " ++
        "address a:b:c, error info: address a:b:c:443: too many colons in address")) := by
  refine ⟨by decide, rfl, by decide, ?_⟩
  set_option maxRecDepth 1000000 in decide

/-- C8, amended. For every address and every dial failure, `getClientConn`
returns a nil channel and an error whose message is exactly
`unable to connect to RPC server: ` followed by the message of the cause (so
the message contains the cause's message, and it is no usage error); and
`getClient`, in a context whose global `rpcserver` is that address, returns
that same error with a nil client and a nil release function. -/
theorem getClientConn_dial_failure (wide : Nat → Bool)
    (Dial : GoString → Except GoError ClientConn) (address : GoString) (cause : GoError)
    (h : Dial address = .error cause) :
    getClientConn wide Dial address = (none, some (.errorString
      (str "unable to connect to RPC server: " ++ cause.Error wide))) ∧
    (GoError.errorString (str "unable to connect to RPC server: " ++ cause.Error wide)).Error
      wide = str "unable to connect to RPC server: " ++ cause.Error wide ∧
    cause.Error wide <:+: str "unable to connect to RPC server: " ++ cause.Error wide ∧
    errors.As (.errorString
      (str "unable to connect to RPC server: " ++ cause.Error wide)) = none ∧
    (∀ ctx : Context, ctx.GlobalString (str "rpcserver") = address →
      getClient wide Dial ctx = (none, none, (getClientConn wide Dial address).2)) := by
  have hc : getClientConn wide Dial address = (none, some (.errorString
      (str "unable to connect to RPC server: " ++ cause.Error wide))) := by
    simp [getClientConn, h]
  refine ⟨hc, rfl, ⟨str "unable to connect to RPC server: ", [], by simp⟩, rfl, ?_⟩
  · intro ctx hctx
    simp [getClient, hctx, hc]

/-- Witness of C8: the global flag `--rpcserver dns:///a:b:c`, whose dial
fails while the resolver is built. -/
theorem getClientConn_dial_failure_witness :
    getClientConn noWide dialInsecure (str "dns:///a:b:c") = (none, some (.errorString
      (str ("unable to connect to RPC server: failed to build resolver: invalid target " ++
        "address a:b:c, error info: address a:b:c:443: too many colons in address")))) ∧
    getClient noWide dialInsecure ctxDns = (none, none, some (.errorString
      (str ("unable to connect to RPC server: failed to build resolver: invalid target " ++
        "address a:b:c, error info: address a:b:c:443: too many colons in address")))) :=
  have h := getClientConn_dial_failure noWide dialInsecure (str "dns:///a:b:c")
    (.errorString (str ("failed to build resolver: invalid target address a:b:c, " ++
      "error info: address a:b:c:443: too many colons in address"))) rfl
  ⟨h.1.trans (by decide), (h.2.2.2.2 ctxDns (by decide)).trans (by decide)⟩

/-! ## The error and exit contract -/

theorem as_of_holdsUsage (err : GoError) (ctx : Context) (command : GoString)
    (h : HoldsUsage err ctx command) : errors.As err = some (ctx, command) := by
  induction h with
  | self ctx command => rfl
  | wrap msg err ctx command _ ih => simpa [errors.As] using ih

theorem holdsUsage_of_as (err : GoError) (ctx : Context) (command : GoString)
    (h : errors.As err = some (ctx, command)) : HoldsUsage err ctx command := by
  induction err with
  | invalidUsageError c k =>
    simp only [errors.As, Option.some.injEq, Prod.mk.injEq] at h
    obtain ⟨rfl, rfl⟩ := h
    exact .self _ _
  | wrapError msg inner ih => exact .wrap _ _ _ _ (ih (by simpa [errors.As] using h))
  | InvalidByteError b => simp [errors.As] at h
  | ErrLength => simp [errors.As] at h
  | NumError fn num k => simp [errors.As] at h
  | errorString m => simp [errors.As] at h

/-- Refutation of C9 as stated: the error `fmt.Errorf("new: %w", err)` around
a usage error is not itself an `invalidUsageError`, yet `fatal` shows the help
of the command `new` and writes nothing to stderr, instead of writing the
line `[llm] new: invalid usage of command new`. -/
theorem fatal_wrapped_counterexample :
    wrappedUsage.isUsage = false ∧
    fatal noWide wrappedUsage
      = { help := some (ctxNone, str "new"), stderr := [], exitCode := 1 } ∧
    fatal noWide wrappedUsage
      ≠ { help := none
          stderr := str "[llm] " ++ wrappedUsage.Error noWide ++ str "\n"
          exitCode := 1 } := by
  decide

/-- C9, amended. Error and exit contract of `fatal`, over its effects (help
shown, bytes written to stderr, exit status).  For every error value: when it
is an `invalidUsageError` or wraps one (the usage error is reached through
`Unwrap`), `fatal` shows the command help for the command named in that usage
error, with the context held in it, and writes nothing to stderr; when it
neither is nor wraps one, `fatal` shows no help and writes exactly `[llm] `,
the message of the error and a newline to stderr; in both cases the exit
status is 1. -/
theorem fatal_contract (wide : Nat → Bool) (err : GoError) :
    (∀ (ctx : Context) (command : GoString), err = .invalidUsageError ctx command →
      fatal wide err = { help := some (ctx, command), stderr := [], exitCode := 1 }) ∧
    (∀ (ctx : Context) (command : GoString), HoldsUsage err ctx command →
      fatal wide err = { help := some (ctx, command), stderr := [], exitCode := 1 }) ∧
    ((∀ (ctx : Context) (command : GoString), ¬ HoldsUsage err ctx command) →
      fatal wide err =
        { help := none, stderr := str "[llm] " ++ err.Error wide ++ str "\n", exitCode := 1 }) ∧
    (fatal wide err).exitCode = 1 := by
  refine ⟨?_, ?_, ?_, ?_⟩
  · rintro ctx command rfl
    rfl
  · intro ctx command h
    simp [fatal, as_of_holdsUsage err ctx command h]
  · intro h
    cases ha : errors.As err with
    | none => simp [fatal, ha]
    | some p => exact absurd (holdsUsage_of_as err p.1 p.2 ha) (h p.1 p.2)
  · unfold fatal
    cases errors.As err with
    | none => rfl
    | some p => rfl

/-- Witness of C9: the usage error of the command `new`, the same error
wrapped, and the range error of `ParseUint` on `2^64`. -/
theorem fatal_contract_witness :
    fatal noWide (.invalidUsageError ctxNone (str "new"))
      = { help := some (ctxNone, str "new"), stderr := [], exitCode := 1 } ∧
    fatal noWide (.wrapError (str "new: invalid usage of command new")
        (.invalidUsageError ctxNone (str "new")))
      = { help := some (ctxNone, str "new"), stderr := [], exitCode := 1 } ∧
    fatal noWide (.NumError (str "ParseUint") (str "18446744073709551616") .ErrRange)
      = { help := none
          stderr := str ("[llm] strconv.ParseUint: parsing \"18446744073709551616\": " ++
            "value out of range\n")
          exitCode := 1 } :=
  ⟨(fatal_contract noWide (.invalidUsageError ctxNone (str "new"))).1 ctxNone (str "new") rfl,
    (fatal_contract noWide (.wrapError (str "new: invalid usage of command new")
      (.invalidUsageError ctxNone (str "new")))).2.1 ctxNone (str "new")
      (.wrap _ _ _ _ (.self _ _)),
    ((fatal_contract noWide
      (.NumError (str "ParseUint") (str "18446744073709551616") .ErrRange)).2.2.1
      (fun _ _ h => nomatch h)).trans (by decide)⟩

end Llm
